import Mathlib

/-!
Verification of the JSON extraction pipeline of `actix-web-utils`.

The embedding follows `src/json.rs` and `src/json_config.rs` (the two files
contain line-identical extraction logic: `JsonExtractFut` in `json.rs` and
`JsonExtractInternalFut` in `json_config.rs`), together with
`src/validation.rs` (the `Valid` trait and its `NotValidated` / `Validated`
implementations) and the `Responder` implementation for the `Json` carrier.

External collaborators (the actix-web request object, serde_json, the
validator crate) are modelled at their interface: the request carries the
result of `req.mime_type()` and of the `Content-Length` header lookup, the
body is a finite list of stream items, and the deserializer and the
validation ruleset are parameters of the pipeline.
-/

/-- Model of a parsed MIME type as used by the content-type gate in
`JsonExtractFut::new`: only the subtype and the optional suffix are
inspected by the source. -/
structure Mime where
  subtype : String
  suffix : Option String
deriving DecidableEq, Repr

/-- Model of the request metadata the extractor reads.

`mimeResult` is the result of `req.mime_type()`: `.ok none` when no
Content-Type header is present, `.ok (some m)` when the header parses to
the MIME type `m`, and `.error ()` when a Content-Type header is present
but does not parse.

`contentLength` is the result of the Content-Length header lookup composed
with `to_str`: `none` when the header is absent, `some none` when the
header value is not valid text (`to_str` fails), and `some (some s)` when
it is the text `s`. -/
structure Request where
  mimeResult : Except Unit (Option Mime)
  contentLength : Option (Option String)

/-- Decidable equality for `Except`, used to evaluate the pipeline on
concrete inputs. -/
instance exceptDecEq {α β : Type} [DecidableEq α] [DecidableEq β] :
    DecidableEq (Except α β)
  | .error a, .error b =>
    if h : a = b then .isTrue (by rw [h])
    else .isFalse (by intro hh; cases hh; exact h rfl)
  | .error _, .ok _ => .isFalse (fun h => Except.noConfusion h)
  | .ok _, .error _ => .isFalse (fun h => Except.noConfusion h)
  | .ok a, .ok b =>
    if h : a = b then .isTrue (by rw [h])
    else .isFalse (by intro hh; cases hh; exact h rfl)

/-- One item yielded by the body stream: a data chunk (list of bytes) or a
transport-level payload error, modelled by its message. -/
abbrev StreamItem := Except String (List Nat)

/-- Model of `actix_web::error::JsonPayloadError` as used by the source. -/
inductive JsonPayloadError where
  | contentType
  | overflowKnownLength (length limit : Nat)
  | overflow (limit : Nat)
  | deserialize (e : String)
  | payload (e : String)
  | serialize (e : String)
deriving DecidableEq, Repr

/-- Status code of each payload error, as mapped by actix-web's
`ResponseError` implementation for `JsonPayloadError` (spec section 6:
content type is a 415, size overflows are 413, malformed body is 400,
serialization failure is 500). -/
def JsonPayloadError.statusCode : JsonPayloadError → Nat
  | .contentType => 415
  | .overflowKnownLength _ _ => 413
  | .overflow _ => 413
  | .deserialize _ => 400
  | .payload _ => 400
  | .serialize _ => 500

/-- An error produced by the whole extraction: either a `JsonPayloadError`
converted into an `actix_web::Error`, or a validation failure wrapped in
the `BadRequest` response error of `src/validation.rs` (`map_errors`).
Validation errors are modelled as the list of violated field rules. -/
inductive ExtractError where
  | payloadErr (e : JsonPayloadError)
  | validation (e : List String)
deriving DecidableEq, Repr

/-- Status code of an extraction error; `BadRequest::status_code` in
`src/validation.rs` returns `StatusCode::BAD_REQUEST`. -/
def ExtractError.statusCode : ExtractError → Nat
  | .payloadErr e => e.statusCode
  | .validation _ => 400

/-- Rust `<usize as FromStr>::from_str` on a string: an optional leading
plus sign, then at least one ASCII digit, with the value required to fit
in a 64-bit usize. Models the `s.parse::<usize>()` call in
`JsonExtractFut::new`. -/
def parseUsize (s : String) : Option Nat :=
  let ds := match s.data with
    | '+' :: rest => rest
    | cs => cs
  if ds.isEmpty then none
  else if ds.all Char.isDigit then
    let n := ds.foldl (fun acc c => acc * 10 + (c.toNat - 48)) 0
    if n < 18446744073709551616 then some n else none
  else none

/-- The declared body length computed in `JsonExtractFut::new`:
`req.headers().get(CONTENT_LENGTH).and_then(to_str.ok).and_then(parse.ok)`.
Every failure along the chain collapses to `none`. -/
def declaredLength (hdr : Option (Option String)) : Option Nat :=
  match hdr with
  | some (some s) => parseUsize s
  | _ => none

/-- The content-type gate of `JsonExtractFut::new`: with a parsed MIME
type, accept when the subtype is json, the suffix is json, or the
configured predicate accepts it (`ctype_fn.map_or(false, ..)`); in every
other case (`Ok(None)` or `Err(_)` from `mime_type()`) accept exactly when
`ctype_required` is false. -/
def canParseJson (mimeResult : Except Unit (Option Mime))
    (ctypeFn : Option (Mime → Bool)) (ctypeRequired : Bool) : Bool :=
  match mimeResult with
  | .ok (some m) =>
    m.subtype == "json" || m.suffix == some "json" ||
      (match ctypeFn with
       | some p => p m
       | none => false)
  | _ => !ctypeRequired

/-- Default payload limit, `DEFAULT_LIMIT` in the source (2 MB). -/
def DEFAULT_LIMIT : Nat := 2097152

/-- The `Body` variant's fields of `JsonExtractFut`: the active limit, the
declared length, the remaining stream and the accumulation buffer. -/
structure BodyState where
  limit : Nat
  length : Option Nat
  payload : List StreamItem
  buf : List Nat
deriving DecidableEq, Repr

/-- The extraction future `JsonExtractFut` (identically
`JsonExtractInternalFut` in `src/json_config.rs`): either a stored error,
held in an `Option` because `poll_bytes` takes it out, or the body
accumulation state. -/
inductive JsonExtractFut where
  | error (e : Option JsonPayloadError)
  | body (s : BodyState)
deriving DecidableEq, Repr

/-- `JsonExtractFut::new`: run the content-type gate; on rejection store a
`ContentType` error, otherwise start accumulating with an empty buffer,
the parsed declared length and the default limit (the configured limit is
installed afterwards by `JsonExtractFut::limit`). -/
def JsonExtractFut.new (req : Request) (ctypeFn : Option (Mime → Bool))
    (ctypeRequired : Bool) (payload : List StreamItem) : JsonExtractFut :=
  if canParseJson req.mimeResult ctypeFn ctypeRequired = false then
    .error (some .contentType)
  else
    .body ⟨DEFAULT_LIMIT, declaredLength req.contentLength, payload, []⟩

/-- `JsonExtractFut::limit`: on a body state, reject eagerly with
`OverflowKnownLength` when the declared length exceeds the new limit,
otherwise install the new limit; an error state passes through. -/
def JsonExtractFut.limit (self : JsonExtractFut) (limit : Nat) : JsonExtractFut :=
  match self with
  | .body s =>
    match s.length with
    | some len =>
      if len > limit then .error (some (.overflowKnownLength len limit))
      else .body ⟨limit, s.length, s.payload, s.buf⟩
    | none => .body ⟨limit, s.length, s.payload, s.buf⟩
  | .error e => .error e

/-- `Json::<T, V>::from_request` (and equally
`JsonExtractInternalFut::from_req_and_payload`): resolve the
configuration, build the future with `new`, then apply the configured
limit. -/
def fromRequestFut (req : Request) (ctypeFn : Option (Mime → Bool))
    (ctypeRequired : Bool) (configLimit : Nat) (payload : List StreamItem) :
    JsonExtractFut :=
  (JsonExtractFut.new req ctypeFn ctypeRequired payload).limit configLimit

/-- Outcome of one complete drive of the accumulation loop of
`poll_bytes` over the remaining (finite) stream: the returned result, the
buffer left in the future's state, the number of `poll_next` pulls
performed, and the stream items never pulled. -/
structure RunOut where
  result : Except JsonPayloadError (List Nat)
  buf : List Nat
  pulls : Nat
  rest : List StreamItem
deriving DecidableEq, Repr

/-- The accumulation loop of `poll_bytes`, driven to completion over a
finite stream. On a data chunk, the overflow check
`buf.len() + chunk.len() > limit` is performed before appending: a chunk
that would cross the limit is discarded and the loop fails with
`Overflow`; otherwise the chunk is appended. A transport error is
propagated by the `chunk?` line. Stream end returns the buffer, moved out
of the state by `take` (the state keeps an empty buffer). -/
def pollBytesRun (limit : Nat) (buf : List Nat) :
    List StreamItem → RunOut
  | [] => ⟨.ok buf, [], 1, []⟩
  | .error e :: rest => ⟨.error (.payload e), buf, 1, rest⟩
  | .ok chunk :: rest =>
    if buf.length + chunk.length > limit then
      ⟨.error (.overflow limit), buf, 1, rest⟩
    else
      let r := pollBytesRun limit (buf ++ chunk) rest
      ⟨r.result, r.buf, r.pulls + 1, r.rest⟩

/-- The successive buffer contents observable during the accumulation loop
of `poll_bytes`, starting with the initial buffer: a new entry appears
exactly when a chunk is appended; a discarded (overflowing) chunk and a
transport error add nothing. -/
def pollBytesBufs (limit : Nat) (buf : List Nat) :
    List StreamItem → List (List Nat)
  | [] => [buf]
  | .error _ :: _ => [buf]
  | .ok chunk :: rest =>
    if buf.length + chunk.length > limit then [buf]
    else buf :: pollBytesBufs limit (buf ++ chunk) rest

/-- Outcome of one `poll_bytes` call on the future: either a ready result,
or the panic caused by `e.take().unwrap()` when the stored error was
already taken by a previous poll. -/
inductive PollBytesOut where
  | panic
  | ready (r : Except JsonPayloadError (List Nat))
deriving DecidableEq, Repr

/-- One `poll_bytes` call on the future, driven until the stream ends or
an error is returned: yields the outcome, the future's state afterwards
and the number of stream pulls. In the `Error` state the stored error is
taken out of the `Option` (`e.take().unwrap()`), so the state left behind
is `Error(None)` and a later poll panics; no pull happens. -/
def pollBytesStep : JsonExtractFut → PollBytesOut × JsonExtractFut × Nat
  | .error none => (.panic, .error none, 0)
  | .error (some e) => (.ready (.error e), .error none, 0)
  | .body s =>
    let r := pollBytesRun s.limit s.buf s.payload
    (.ready r.result, .body ⟨s.limit, s.length, r.rest, r.buf⟩, r.pulls)

/-- Outcome of polling the whole extraction future. -/
inductive FutPollOut (T : Type) where
  | panic
  | ready (r : Except ExtractError T)
deriving DecidableEq, Repr

/-- `Future::poll` for `JsonExtractFut` (identically for
`JsonExtractInternalFut`), driven to completion: run `poll_bytes`; on
bytes, run the deserializer (`serde_json::from_slice`, modelled by the
parameter `des`); on parse failure return `Deserialize` with the
underlying error; on success run the validation strategy `V::valid`
(parameter `valid`) and return the value or the validation error. -/
def futPoll {T : Type} (des : List Nat → Except String T)
    (valid : T → Except ExtractError Unit) (fut : JsonExtractFut) :
    FutPollOut T × JsonExtractFut × Nat :=
  match pollBytesStep fut with
  | (.panic, s, n) => (.panic, s, n)
  | (.ready (.error e), s, n) => (.ready (.error (.payloadErr e)), s, n)
  | (.ready (.ok bytes), s, n) =>
    match des bytes with
    | .ok v =>
      match valid v with
      | .ok _ => (.ready (.ok v), s, n)
      | .error e => (.ready (.error e), s, n)
    | .error e => (.ready (.error (.payloadErr (.deserialize e))), s, n)

/-- `NotValidated`'s `Valid` implementation in `src/validation.rs`: always
`Ok(())`. -/
def notValidatedValid {T : Type} (_ : T) : Except ExtractError Unit := .ok ()

/-- The names of all rules of a declarative ruleset violated by a value.
A ruleset is a list of named field rules; this models the validator
crate's derived `validate`, which checks every declared rule and collects
all violations rather than stopping at the first. -/
def violations {T : Type} (rules : List (String × (T → Bool))) (v : T) :
    List String :=
  (rules.filter (fun r => !(r.2 v))).map Prod.fst

/-- Modelled run of the validator crate's `Validate::validate`: `Ok` when
no rule is violated, otherwise `Err` carrying every violated rule. -/
def runValidation {T : Type} (rules : List (String × (T → Bool))) (v : T) :
    Except (List String) Unit :=
  if violations rules v = [] then .ok () else .error (violations rules v)

/-- `Validated`'s `Valid` implementation in `src/validation.rs`:
`value.validate().map_err(map_errors)`, where `map_errors` wraps the full
`ValidationErrors` in the `BadRequest` response error. -/
def validatedValid {T : Type} (rules : List (String × (T → Bool))) (v : T) :
    Except ExtractError Unit :=
  match runValidation rules v with
  | .ok _ => .ok ()
  | .error e => .error (.validation e)

/-- A rendered HTTP response: status, content-type header and body. -/
structure HttpResponseModel where
  status : Nat
  contentType : Option String
  body : String
deriving DecidableEq, Repr

/-- The three branches of `Responder::respond_to` for the `Json` carrier:
a successful 200 response with the serialized body (left body), the
response built from a `message_body` construction error (right body), or
the response built from `JsonPayloadError::Serialize` (right body). -/
inductive RespondOutcome (E : Type) where
  | okResponse (body : String)
  | builderErrorResponse (e : E)
  | serializeErrorResponse (e : String)
deriving DecidableEq, Repr

/-- `Responder::respond_to` for `Json<T, V>` in `src/json.rs`: serialize
the inner value with `serde_json::to_string` (parameter `ser`); on
success, build the `200 OK` response with `message_body` (parameter
`build`), falling back to `HttpResponse::from_error` on a construction
error; on serialization failure, respond with
`from_error(JsonPayloadError::Serialize(err))` instead of panicking. -/
def respondTo {T E : Type} (ser : T → Except String String)
    (build : String → Except E Unit) (v : T) : RespondOutcome E :=
  match ser v with
  | .ok body =>
    match build body with
    | .ok _ => .okResponse body
    | .error e => .builderErrorResponse e
  | .error e => .serializeErrorResponse e

/-- Render a respond outcome as an HTTP response. The success branch is
`HttpResponse::Ok().content_type(mime::APPLICATION_JSON).message_body(body)`:
status 200, content type `application/json`, the serialized text as body.
A builder error renders through `from_error` (parameter `renderE`). The
serialization failure renders through `from_error` on
`JsonPayloadError::Serialize`, whose response status is 500; its body text
is not modelled. -/
def renderOutcome {E : Type} (renderE : E → HttpResponseModel) :
    RespondOutcome E → HttpResponseModel
  | .okResponse body => ⟨200, some "application/json", body⟩
  | .builderErrorResponse e => renderE e
  | .serializeErrorResponse e =>
    ⟨(JsonPayloadError.serialize e).statusCode, none, ""⟩

/-- The content-type acceptance condition exactly as the specification
words it, for comparison with the gate implemented in the source: (a) no
content-type header is present and `content_type_required` is false, or
(b) the declared MIME subtype or suffix is json, or (c) a configured
custom predicate accepts the declared MIME type. -/
def specGateAccepts (mimeResult : Except Unit (Option Mime))
    (ctypeFn : Option (Mime → Bool)) (ctypeRequired : Bool) : Prop :=
  (mimeResult = .ok none ∧ ctypeRequired = false)
  ∨ (∃ m, mimeResult = .ok (some m) ∧
      (m.subtype = "json" ∨ m.suffix = some "json"))
  ∨ (∃ m p, mimeResult = .ok (some m) ∧ ctypeFn = some p ∧ p m = true)

/-- The amended acceptance condition: clause (a) widened from "no header
present" to "no parseable MIME type" (header absent, or present but
unparseable), which is what the source's `if let Ok(Some(mime))` pattern
actually distinguishes. -/
def specGateAcceptsAmended (mimeResult : Except Unit (Option Mime))
    (ctypeFn : Option (Mime → Bool)) (ctypeRequired : Bool) : Prop :=
  ((mimeResult = .ok none ∨ mimeResult = .error ()) ∧ ctypeRequired = false)
  ∨ (∃ m, mimeResult = .ok (some m) ∧
      (m.subtype = "json" ∨ m.suffix = some "json"))
  ∨ (∃ m p, mimeResult = .ok (some m) ∧ ctypeFn = some p ∧ p m = true)

/-! ## Helper lemmas about the accumulation loop -/

/-- When every chunk is data and the total length fits under the limit,
the loop appends every chunk, returns the concatenation, leaves an empty
buffer, and performs one pull per chunk plus the final end-of-stream
pull. -/
theorem pollBytesRun_ok (limit : Nat) :
    ∀ (chunks : List (List Nat)) (buf : List Nat),
      buf.length + (chunks.map List.length).sum ≤ limit →
      pollBytesRun limit buf (chunks.map Except.ok) =
        ⟨.ok (buf ++ chunks.flatten), [], chunks.length + 1, []⟩ := by
  intro chunks
  induction chunks with
  | nil =>
    intro buf h
    simp [pollBytesRun]
  | cons c cs ih =>
    intro buf h
    simp only [List.map_cons, List.sum_cons] at h
    have hle : ¬ buf.length + c.length > limit := by omega
    have hrec := ih (buf ++ c) (by simp [List.length_append]; omega)
    simp only [List.map_cons, pollBytesRun, if_neg hle, hrec]
    simp [List.flatten, List.append_assoc]

/-- When the running total first crosses the limit at chunk `i` (the first
`i` chunks fit, adding chunk `i` does not), the loop fails with `Overflow`
carrying the limit, the buffer holds exactly the concatenation of the
first `i` chunks (the crossing chunk is discarded), exactly `i + 1` pulls
happen, and the chunks after the crossing one are never pulled. -/
theorem pollBytesRun_overflow (limit : Nat) :
    ∀ (i : Nat) (chunks : List (List Nat)) (buf : List Nat),
      buf.length + ((chunks.take i).map List.length).sum ≤ limit →
      buf.length + ((chunks.take (i + 1)).map List.length).sum > limit →
      pollBytesRun limit buf (chunks.map Except.ok) =
        ⟨.error (.overflow limit), buf ++ (chunks.take i).flatten, i + 1,
          (chunks.drop (i + 1)).map Except.ok⟩ := by
  intro i
  induction i with
  | zero =>
    intro chunks buf h1 h2
    cases chunks with
    | nil => simp at h2; omega
    | cons c cs =>
      simp only [List.take, List.map_cons, List.sum_cons, List.map_nil,
        List.sum_nil] at h1 h2
      simp only [List.map_cons, pollBytesRun, if_pos (by omega : buf.length + c.length > limit)]
      simp [List.take, List.flatten]
  | succ j ih =>
    intro chunks buf h1 h2
    cases chunks with
    | nil => simp at h1 h2; omega
    | cons c cs =>
      simp only [List.take, List.map_cons, List.sum_cons] at h1 h2
      have hle : ¬ buf.length + c.length > limit := by omega
      have hrec := ih cs (buf ++ c)
        (by simp only [List.length_append]; omega)
        (by simp only [List.length_append]; omega)
      simp only [List.map_cons, pollBytesRun, if_neg hle, hrec]
      simp [List.take, List.flatten, List.append_assoc, List.drop]

/-- Every buffer observable during the loop stays within the limit,
provided the initial buffer does: the overflow check runs before each
append, so an appended chunk never pushes the buffer past the limit. -/
theorem pollBytesBufs_le (limit : Nat) :
    ∀ (items : List StreamItem) (buf : List Nat),
      buf.length ≤ limit →
      ∀ b ∈ pollBytesBufs limit buf items, b.length ≤ limit := by
  intro items
  induction items with
  | nil =>
    intro buf h b hb
    simp [pollBytesBufs] at hb
    simp [hb, h]
  | cons item rest ih =>
    intro buf h b hb
    match item with
    | .error e =>
      simp [pollBytesBufs] at hb
      simp [hb, h]
    | .ok chunk =>
      simp only [pollBytesBufs] at hb
      by_cases hc : buf.length + chunk.length > limit
      · rw [if_pos hc] at hb
        simp at hb
        simp [hb, h]
      · rw [if_neg hc] at hb
        simp only [List.mem_cons] at hb
        rcases hb with hb | hb
        · simp [hb, h]
        · exact ih (buf ++ chunk) (by simp [List.length_append]; omega) b hb

/-- The buffer left in the state after the loop completes never exceeds
the limit, whatever the stream contained, provided the initial buffer was
within the limit. -/
theorem pollBytesRun_buf_le (limit : Nat) :
    ∀ (items : List StreamItem) (buf : List Nat),
      buf.length ≤ limit →
      (pollBytesRun limit buf items).buf.length ≤ limit := by
  intro items
  induction items with
  | nil =>
    intro buf h
    simp [pollBytesRun]
  | cons item rest ih =>
    intro buf h
    match item with
    | .error e => simpa [pollBytesRun] using h
    | .ok chunk =>
      simp only [pollBytesRun]
      by_cases hc : buf.length + chunk.length > limit
      · rw [if_pos hc]
        simpa using h
      · rw [if_neg hc]
        exact ih (buf ++ chunk) (by simp [List.length_append]; omega)

/-! ## Helper lemmas about future construction -/

/-- A request rejected by the content-type gate yields the stored
`ContentType` error, whatever limit is installed afterwards. -/
theorem fromRequestFut_gate_fail (req : Request) (ctypeFn : Option (Mime → Bool))
    (ctypeRequired : Bool) (configLimit : Nat) (payload : List StreamItem)
    (h : canParseJson req.mimeResult ctypeFn ctypeRequired = false) :
    fromRequestFut req ctypeFn ctypeRequired configLimit payload =
      .error (some .contentType) := by
  simp [fromRequestFut, JsonExtractFut.new, h, JsonExtractFut.limit]

/-- A request accepted by the gate whose declared length is absent or
within the configured limit starts accumulating with an empty buffer and
the configured limit. -/
theorem fromRequestFut_body (req : Request) (ctypeFn : Option (Mime → Bool))
    (ctypeRequired : Bool) (configLimit : Nat) (payload : List StreamItem)
    (hg : canParseJson req.mimeResult ctypeFn ctypeRequired = true)
    (hd : declaredLength req.contentLength = none ∨
      ∃ d, declaredLength req.contentLength = some d ∧ d ≤ configLimit) :
    fromRequestFut req ctypeFn ctypeRequired configLimit payload =
      .body ⟨configLimit, declaredLength req.contentLength, payload, []⟩ := by
  simp only [fromRequestFut, JsonExtractFut.new, hg]
  rcases hd with hd | ⟨d, hd, hdl⟩
  · simp [JsonExtractFut.limit, hd]
  · simp [JsonExtractFut.limit, hd, Nat.not_lt.mpr hdl]

/-- A request accepted by the gate whose declared length exceeds the
configured limit is rejected eagerly by `JsonExtractFut::limit` with
`OverflowKnownLength`. -/
theorem fromRequestFut_known_overflow (req : Request)
    (ctypeFn : Option (Mime → Bool)) (ctypeRequired : Bool)
    (configLimit len : Nat) (payload : List StreamItem)
    (hg : canParseJson req.mimeResult ctypeFn ctypeRequired = true)
    (hd : declaredLength req.contentLength = some len)
    (hover : len > configLimit) :
    fromRequestFut req ctypeFn ctypeRequired configLimit payload =
      .error (some (.overflowKnownLength len configLimit)) := by
  simp [fromRequestFut, JsonExtractFut.new, hg, JsonExtractFut.limit, hd, hover]

/-! ## Claim theorems -/

/-- C1: for every byte sequence whose total length is at most the
configured limit and whose declared Content-Length, when it parses, is at
most the limit, extraction with the `NotValidated` strategy succeeds if
and only if deserialization of the accumulated bytes succeeds; on success
the value is exactly the deserialized one, and on parse failure the error
is `Deserialize` carrying the underlying parse error. -/
theorem c1_decode_iff_deserialize {T : Type} (des : List Nat → Except String T)
    (limit : Nat) (chunks : List (List Nat)) (hdr : Option (Option String))
    (hsum : (chunks.map List.length).sum ≤ limit)
    (hdecl : declaredLength hdr = none ∨
      ∃ d, declaredLength hdr = some d ∧ d ≤ limit) :
    (futPoll des notValidatedValid
      (fromRequestFut ⟨.ok (some ⟨"json", none⟩), hdr⟩ none true limit
        (chunks.map Except.ok))).1 =
      match des chunks.flatten with
      | .ok v => .ready (.ok v)
      | .error e => .ready (.error (.payloadErr (.deserialize e))) := by
  have hg : canParseJson (Except.ok (some ⟨"json", none⟩)) none true = true := by
    decide
  rw [fromRequestFut_body _ _ _ _ _ hg hdecl]
  simp only [futPoll, pollBytesStep]
  rw [pollBytesRun_ok limit chunks [] (by simpa using hsum)]
  cases h : des chunks.flatten <;> simp [h, notValidatedValid]

/-- Witness for C1 at a concrete input: a one-chunk body within the limit,
a deserializer accepting exactly that byte sequence. -/
theorem c1_decode_iff_deserialize_witness :
    (futPoll (fun b => if b = [49] then Except.ok (1 : Nat) else Except.error "bad")
      notValidatedValid
      (fromRequestFut ⟨.ok (some ⟨"json", none⟩), none⟩ none true 10
        ([[49]].map Except.ok))).1 =
      match (fun b => if b = [49] then Except.ok (1 : Nat) else Except.error "bad")
          ([[49]] : List (List Nat)).flatten with
      | .ok v => .ready (.ok v)
      | .error e => .ready (.error (.payloadErr (.deserialize e))) :=
  c1_decode_iff_deserialize
    (fun b => if b = [49] then Except.ok (1 : Nat) else Except.error "bad")
    10 [[49]] none (by decide) (Or.inl (by decide))

/-- C2: the buffer never exceeds the limit at any observable point of the
accumulation loop — every buffer the loop ever holds, and the buffer left
in the state at the end, are within the limit, because the overflow check
runs before a chunk is committed and an overflowing chunk is discarded. -/
theorem c2_buffer_never_exceeds_limit (limit : Nat) (items : List StreamItem) :
    (∀ b ∈ pollBytesBufs limit [] items, b.length ≤ limit) ∧
      (pollBytesRun limit [] items).buf.length ≤ limit :=
  ⟨pollBytesBufs_le limit items [] (by simp),
   pollBytesRun_buf_le limit items [] (by simp)⟩

/-- Witness for C2 at a concrete input: limit 3, a fitting chunk followed
by an overflowing one; the observed buffer stays within the limit. -/
theorem c2_buffer_never_exceeds_limit_witness :
    ([1, 2] : List Nat).length ≤ 3 ∧
      (pollBytesRun 3 [] [Except.ok [1, 2], Except.ok [7, 7, 7]]).buf.length ≤ 3 :=
  ⟨(c2_buffer_never_exceeds_limit 3 [Except.ok [1, 2], Except.ok [7, 7, 7]]).1
      [1, 2] (by decide),
   (c2_buffer_never_exceeds_limit 3 [Except.ok [1, 2], Except.ok [7, 7, 7]]).2⟩

/-- C3: when the running total first crosses the limit at chunk `i` (the
first `i` chunks fit, chunk `i` does not) and the declared length is
absent or within the limit, extraction fails with `Overflow` carrying the
limit; the crossing chunk and all later chunks are never appended (the
buffer holds exactly the first `i` chunks), and exactly `i + 1` pulls
happen, so nothing is pulled after the failure. -/
theorem c3_overflow_stops_consumption {T : Type} (des : List Nat → Except String T)
    (limit : Nat) (chunks : List (List Nat)) (hdr : Option (Option String))
    (i : Nat)
    (hdecl : declaredLength hdr = none ∨
      ∃ d, declaredLength hdr = some d ∧ d ≤ limit)
    (h1 : ((chunks.take i).map List.length).sum ≤ limit)
    (h2 : ((chunks.take (i + 1)).map List.length).sum > limit) :
    futPoll des notValidatedValid
      (fromRequestFut ⟨.ok (some ⟨"json", none⟩), hdr⟩ none true limit
        (chunks.map Except.ok)) =
      (.ready (.error (.payloadErr (.overflow limit))),
       .body ⟨limit, declaredLength hdr, (chunks.drop (i + 1)).map Except.ok,
         (chunks.take i).flatten⟩,
       i + 1) := by
  have hg : canParseJson (Except.ok (some ⟨"json", none⟩)) none true = true := by
    decide
  rw [fromRequestFut_body _ _ _ _ _ hg hdecl]
  simp only [futPoll, pollBytesStep]
  rw [pollBytesRun_overflow limit i chunks [] (by simpa using h1)
    (by simpa using h2)]
  simp

/-- Witness for C3 at the spec's scenario: limit 100, chunks of sizes 60
and 60, no declared length; overflow after the second pull with only the
first chunk buffered. -/
theorem c3_overflow_stops_consumption_witness :
    futPoll (fun _ => Except.ok (0 : Nat)) notValidatedValid
      (fromRequestFut ⟨.ok (some ⟨"json", none⟩), none⟩ none true 100
        ([List.replicate 60 0, List.replicate 60 0].map Except.ok)) =
      (.ready (.error (.payloadErr (.overflow 100))),
       .body ⟨100, declaredLength none,
         (([List.replicate 60 0, List.replicate 60 0] :
             List (List Nat)).drop 2).map Except.ok,
         (([List.replicate 60 0, List.replicate 60 0] :
             List (List Nat)).take 1).flatten⟩,
       2) :=
  c3_overflow_stops_consumption (fun _ => Except.ok (0 : Nat)) 100
    [List.replicate 60 0, List.replicate 60 0] none 1 (Or.inl (by decide))
    (by decide) (by decide)

/-- C4 counterexample: a request whose declared Content-Length (101)
exceeds the configured limit (100) but whose content type fails the gate
is rejected with `ContentType`, not with `OverflowKnownLength`: the
content-type gate runs before the declared-length check, so the claim as
stated does not hold for every such request. -/
theorem c4_gate_precedes_known_length_check :
    declaredLength (some (some "101")) = some 101 ∧ 101 > 100 ∧
    (futPoll (fun _ => Except.ok (0 : Nat)) notValidatedValid
      (fromRequestFut ⟨.ok (some ⟨"plain", none⟩), some (some "101")⟩
        none true 100 [])).1 =
      .ready (.error (.payloadErr .contentType)) ∧
    (futPoll (fun _ => Except.ok (0 : Nat)) notValidatedValid
      (fromRequestFut ⟨.ok (some ⟨"plain", none⟩), some (some "101")⟩
        none true 100 [])).1 ≠
      .ready (.error (.payloadErr (.overflowKnownLength 101 100))) := by
  decide

/-- C4 amended: for every request that passes the content-type gate and
whose declared Content-Length parses to a value strictly greater than the
configured limit, extraction fails with `OverflowKnownLength` carrying
that length and that limit, and the body stream is never pulled. -/
theorem c4_known_length_overflow_no_pull {T : Type}
    (des : List Nat → Except String T) (valid : T → Except ExtractError Unit)
    (req : Request) (ctypeFn : Option (Mime → Bool)) (ctypeRequired : Bool)
    (limit len : Nat) (payload : List StreamItem)
    (hg : canParseJson req.mimeResult ctypeFn ctypeRequired = true)
    (hd : declaredLength req.contentLength = some len) (hover : len > limit) :
    futPoll des valid (fromRequestFut req ctypeFn ctypeRequired limit payload) =
      (.ready (.error (.payloadErr (.overflowKnownLength len limit))),
        .error none, 0) := by
  rw [fromRequestFut_known_overflow req ctypeFn ctypeRequired limit len payload
    hg hd hover]
  rfl

/-- Witness for the amended C4 at a concrete input: a json request with
declared length 101 against limit 100 and a non-empty stream; zero
pulls. -/
theorem c4_known_length_overflow_no_pull_witness :
    futPoll (fun _ => Except.ok (0 : Nat)) notValidatedValid
      (fromRequestFut ⟨.ok (some ⟨"json", none⟩), some (some "101")⟩ none true
        100 [Except.ok [1]]) =
      (.ready (.error (.payloadErr (.overflowKnownLength 101 100))),
        .error none, 0) :=
  c4_known_length_overflow_no_pull _ _ _ _ _ _ _ _ (by decide) (by decide)
    (by decide)

/-- C5 counterexample: a request carrying a Content-Type header that does
not parse (`mime_type()` returns an error), with
`content_type_required = false`, is accepted by the gate and extraction
proceeds to a successful decode, although none of the three acceptance
cases of the claim applies (the header is present, and no MIME type
parses for cases b and c). -/
theorem c5_unparseable_header_accepted :
    canParseJson (.error ()) none false = true ∧
    ¬ specGateAccepts (.error ()) none false ∧
    (futPoll (fun _ => Except.ok (0 : Nat)) notValidatedValid
      (fromRequestFut ⟨.error (), none⟩ none false 100 [])).1 =
      .ready (.ok 0) := by
  refine ⟨by decide, ?_, by decide⟩
  rintro (⟨h, _⟩ | ⟨m, h, _⟩ | ⟨m, p, h, _, _⟩) <;> exact Except.noConfusion h

/-- C5 amended: the gate accepts exactly when (a) no parseable
content-type is present (header absent, or present but unparseable) and
`content_type_required` is false, or (b) the declared MIME subtype or
suffix is json, or (c) the configured predicate accepts the declared MIME
type; in every other case extraction fails with `ContentType` and the
body stream is never pulled. -/
theorem c5_gate_characterization {T : Type} (des : List Nat → Except String T)
    (valid : T → Except ExtractError Unit)
    (mimeResult : Except Unit (Option Mime)) (ctypeFn : Option (Mime → Bool))
    (ctypeRequired : Bool) (hdr : Option (Option String)) (limit : Nat)
    (payload : List StreamItem) :
    (canParseJson mimeResult ctypeFn ctypeRequired = true ↔
      specGateAcceptsAmended mimeResult ctypeFn ctypeRequired) ∧
    (canParseJson mimeResult ctypeFn ctypeRequired = false →
      futPoll des valid
        (fromRequestFut ⟨mimeResult, hdr⟩ ctypeFn ctypeRequired limit payload) =
        (.ready (.error (.payloadErr .contentType)), .error none, 0)) := by
  constructor
  · constructor
    · intro h
      match mimeResult with
      | .ok none =>
        exact Or.inl ⟨Or.inl rfl, by simpa [canParseJson] using h⟩
      | .error () =>
        exact Or.inl ⟨Or.inr rfl, by simpa [canParseJson] using h⟩
      | .ok (some m) =>
        simp only [canParseJson, Bool.or_eq_true, beq_iff_eq] at h
        rcases h with (h | h) | h
        · exact Or.inr (Or.inl ⟨m, rfl, Or.inl h⟩)
        · exact Or.inr (Or.inl ⟨m, rfl, Or.inr h⟩)
        · match ctypeFn with
          | some p => exact Or.inr (Or.inr ⟨m, p, rfl, rfl, h⟩)
          | none => simp at h
    · intro h
      rcases h with ⟨hm | hm, hr⟩ | ⟨m, hm, hsub | hsuf⟩ | ⟨m, p, hm, hp, hpm⟩
      · subst hm; simp [canParseJson, hr]
      · subst hm; simp [canParseJson, hr]
      · subst hm; simp [canParseJson, hsub]
      · subst hm; simp [canParseJson, hsuf]
      · subst hm; subst hp; simp [canParseJson, hpm]
  · intro h
    rw [fromRequestFut_gate_fail _ _ _ _ _ h]
    rfl

/-- Witness for the amended C5 at a concrete input: a `text/plain` request
with `content_type_required = true` and no predicate fails with
`ContentType` and zero pulls, before any body read. -/
theorem c5_gate_characterization_witness :
    futPoll (fun _ => Except.ok (0 : Nat)) notValidatedValid
      (fromRequestFut ⟨.ok (some ⟨"plain", none⟩), none⟩ none true 100
        [Except.ok [1]]) =
      (.ready (.error (.payloadErr .contentType)), .error none, 0) :=
  (c5_gate_characterization (fun _ => Except.ok (0 : Nat)) notValidatedValid
    (.ok (some ⟨"plain", none⟩)) none true none 100 [Except.ok [1]]).2 (by decide)

/-- C6 counterexample: with a custom predicate configured that rejects
every MIME type, a request declaring `application/json` still passes the
gate (the built-in subtype check accepts it) and decodes successfully, so
"decoding succeeds iff the predicate accepts" fails on the code. -/
theorem c6_builtin_json_bypasses_predicate :
    canParseJson (.ok (some ⟨"json", none⟩)) (some (fun _ => false)) true = true ∧
    (fun _ : Mime => false) ⟨"json", none⟩ = false ∧
    (futPoll (fun _ => Except.ok (0 : Nat)) notValidatedValid
      (fromRequestFut ⟨.ok (some ⟨"json", none⟩), none⟩ (some (fun _ => false))
        true 100 [])).1 = .ready (.ok 0) := by
  refine ⟨by decide, rfl, by decide⟩

/-- C6 amended: for every request carrying a parsed content-type header,
with a custom predicate configured, the request passes the content-type
gate if and only if the declared MIME subtype or suffix is json or the
predicate accepts the declared MIME type: when that disjunction is false
the extraction fails with `ContentType` and never pulls the stream, and
when it is true the gate builds the accumulating state. -/
theorem c6_gate_with_predicate {T : Type} (des : List Nat → Except String T)
    (valid : T → Except ExtractError Unit) (m : Mime) (p : Mime → Bool)
    (ctypeRequired : Bool) (hdr : Option (Option String)) (limit : Nat)
    (payload : List StreamItem) :
    ((m.subtype == "json" || m.suffix == some "json" || p m) = false →
      futPoll des valid
        (fromRequestFut ⟨.ok (some m), hdr⟩ (some p) ctypeRequired limit
          payload) =
        (.ready (.error (.payloadErr .contentType)), .error none, 0)) ∧
    ((m.subtype == "json" || m.suffix == some "json" || p m) = true →
      JsonExtractFut.new ⟨.ok (some m), hdr⟩ (some p) ctypeRequired payload =
        .body ⟨DEFAULT_LIMIT, declaredLength hdr, payload, []⟩) := by
  constructor
  · intro h
    rw [fromRequestFut_gate_fail _ _ _ _ _ (by simpa [canParseJson] using h)]
    rfl
  · intro h
    simp [JsonExtractFut.new, canParseJson, h]

/-- Witness for the amended C6 at a concrete input: a
`application/vnd.custom+json` request accepted through the suffix, with a
predicate matching the custom subtype family. -/
theorem c6_gate_with_predicate_witness :
    JsonExtractFut.new ⟨.ok (some ⟨"vnd.custom", some "json"⟩), none⟩
      (some (fun m => m.subtype == "vnd.custom")) true [] =
      .body ⟨DEFAULT_LIMIT, declaredLength none, [], []⟩ :=
  (c6_gate_with_predicate (fun _ => Except.ok (0 : Nat)) notValidatedValid
    ⟨"vnd.custom", some "json"⟩ (fun m => m.subtype == "vnd.custom") true none
    100 []).2 (by decide)

/-- C7: the `NotValidated` strategy succeeds on every value; the
`Validated` strategy succeeds on a value satisfying every declared rule,
and on a value violating some rule it fails with the 400 `BadRequest`
error carrying the violations, which include every violated rule, not
just the first. -/
theorem c7_validation_strategies {T : Type}
    (rules : List (String × (T → Bool))) (v : T) :
    notValidatedValid v = .ok () ∧
    ((∀ r ∈ rules, r.2 v = true) → validatedValid rules v = .ok ()) ∧
    ((∃ r ∈ rules, r.2 v = false) →
      validatedValid rules v = .error (.validation (violations rules v)) ∧
      ExtractError.statusCode (.validation (violations rules v)) = 400 ∧
      ∀ r ∈ rules, r.2 v = false → r.1 ∈ violations rules v) := by
  refine ⟨rfl, ?_, ?_⟩
  · intro h
    have hv : violations rules v = [] := by
      simp only [violations, List.map_eq_nil_iff, List.filter_eq_nil_iff]
      intro r hr
      simp [h r hr]
    simp [validatedValid, runValidation, hv]
  · rintro ⟨r, hr, hrv⟩
    have hmem : r.1 ∈ violations rules v :=
      List.mem_map.mpr ⟨r, List.mem_filter.mpr ⟨hr, by simp [hrv]⟩, rfl⟩
    have hv : violations rules v ≠ [] := List.ne_nil_of_mem hmem
    refine ⟨by simp [validatedValid, runValidation, hv], rfl, ?_⟩
    intro q hq hqv
    exact List.mem_map.mpr ⟨q, List.mem_filter.mpr ⟨hq, by simp [hqv]⟩, rfl⟩

/-- Witness for C7 at a concrete input: a single length-style rule
violated by the value 10; the failure is a 400 carrying the violated
rule. -/
theorem c7_validation_strategies_witness :
    notValidatedValid (10 : Nat) = .ok () ∧
    validatedValid [("small", fun n : Nat => decide (n < 5))] 10 =
      .error (.validation
        (violations [("small", fun n : Nat => decide (n < 5))] 10)) ∧
    ExtractError.statusCode
      (.validation (violations [("small", fun n : Nat => decide (n < 5))] 10)) =
      400 ∧
    "small" ∈ violations [("small", fun n : Nat => decide (n < 5))] 10 :=
  have h := c7_validation_strategies [("small", fun n : Nat => decide (n < 5))]
    (10 : Nat)
  have h3 := h.2.2 ⟨("small", fun n : Nat => decide (n < 5)), by simp, by decide⟩
  ⟨h.1, h3.1, h3.2.1, h3.2.2 ("small", fun n : Nat => decide (n < 5)) (by simp)
    (by decide)⟩

/-- C8: responding with the `Json` carrier: when serialization of the
inner value succeeds and the response builds, the response has status 200,
content type `application/json` and the serialized text as body; when
serialization fails the outcome is the `Serialize` failure rendered as a
500 internal-error response rather than a panic; when building the success
response fails, that construction error is rendered as the response
instead. -/
theorem c8_json_responder {T E : Type} (ser : T → Except String String)
    (build : String → Except E Unit) (renderE : E → HttpResponseModel)
    (v : T) :
    (∀ s, ser v = .ok s → build s = .ok () →
      respondTo ser build v = .okResponse s ∧
      renderOutcome renderE (respondTo ser build v) =
        ⟨200, some "application/json", s⟩) ∧
    (∀ e, ser v = .error e →
      respondTo ser build v = .serializeErrorResponse e ∧
      (renderOutcome renderE (respondTo ser build v)).status = 500) ∧
    (∀ s e, ser v = .ok s → build s = .error e →
      respondTo ser build v = .builderErrorResponse e ∧
      renderOutcome renderE (respondTo ser build v) = renderE e) := by
  refine ⟨?_, ?_, ?_⟩
  · intro s hs hb
    simp [respondTo, hs, hb, renderOutcome]
  · intro e he
    simp [respondTo, he, renderOutcome, JsonPayloadError.statusCode]
  · intro s e hs hb
    simp [respondTo, hs, hb, renderOutcome]

/-- Witness for C8 at a concrete input: a value serializing to `"7"` with
a successful build renders as `200 application/json` with body `"7"`. -/
theorem c8_json_responder_witness :
    respondTo (fun _ : Nat => Except.ok "7") (fun _ => Except.ok ()) 7 =
      RespondOutcome.okResponse (E := Unit) "7" ∧
    renderOutcome (fun _ : Unit => ⟨0, none, ""⟩)
      (respondTo (fun _ : Nat => Except.ok "7") (fun _ => Except.ok ()) 7) =
      ⟨200, some "application/json", "7"⟩ :=
  (c8_json_responder (fun _ : Nat => Except.ok "7") (fun _ => Except.ok ())
    (fun _ : Unit => ⟨0, none, ""⟩) 7).1 "7" rfl rfl

/-- C9: a Content-Length header that is absent, is not valid text, or does
not parse as an unsigned integer makes the declared length `none`; the
eager `OverflowKnownLength` check is then skipped entirely (the future
enters the accumulating state with the configured limit), and polling is
exactly the incremental per-chunk loop. -/
theorem c9_unparseable_length_is_absent (s : String)
    (hdr : Option (Option String)) (mimeResult : Except Unit (Option Mime))
    (ctypeFn : Option (Mime → Bool)) (ctypeRequired : Bool) (limit : Nat)
    (payload : List StreamItem)
    (hparse : parseUsize s = none)
    (hnone : declaredLength hdr = none)
    (hg : canParseJson mimeResult ctypeFn ctypeRequired = true) :
    declaredLength none = none ∧
    declaredLength (some none) = none ∧
    declaredLength (some (some s)) = none ∧
    fromRequestFut ⟨mimeResult, hdr⟩ ctypeFn ctypeRequired limit payload =
      .body ⟨limit, none, payload, []⟩ ∧
    pollBytesStep
        (fromRequestFut ⟨mimeResult, hdr⟩ ctypeFn ctypeRequired limit payload) =
      (.ready (pollBytesRun limit [] payload).result,
       .body ⟨limit, none, (pollBytesRun limit [] payload).rest,
         (pollBytesRun limit [] payload).buf⟩,
       (pollBytesRun limit [] payload).pulls) := by
  have hbody : fromRequestFut ⟨mimeResult, hdr⟩ ctypeFn ctypeRequired limit
      payload = .body ⟨limit, none, payload, []⟩ := by
    rw [fromRequestFut_body _ _ _ _ _ hg (Or.inl hnone), hnone]
  refine ⟨rfl, rfl, by simpa [declaredLength] using hparse, hbody, ?_⟩
  rw [hbody]
  rfl

/-- Witness for C9 at a concrete input: the header text `12ab` does not
parse, so the declared length is treated as absent and no eager rejection
happens even though the limit is tiny. -/
theorem c9_unparseable_length_is_absent_witness :
    declaredLength none = none ∧
    declaredLength (some none) = none ∧
    declaredLength (some (some "12ab")) = none ∧
    fromRequestFut ⟨.ok (some ⟨"json", none⟩), some (some "12ab")⟩ none true 5
        [Except.ok [1]] =
      .body ⟨5, none, [Except.ok [1]], []⟩ ∧
    pollBytesStep
        (fromRequestFut ⟨.ok (some ⟨"json", none⟩), some (some "12ab")⟩ none
          true 5 [Except.ok [1]]) =
      (.ready (pollBytesRun 5 [] [Except.ok [1]]).result,
       .body ⟨5, none, (pollBytesRun 5 [] [Except.ok [1]]).rest,
         (pollBytesRun 5 [] [Except.ok [1]]).buf⟩,
       (pollBytesRun 5 [] [Except.ok [1]]).pulls) :=
  c9_unparseable_length_is_absent "12ab" (some (some "12ab"))
    (.ok (some ⟨"json", none⟩)) none true 5 [Except.ok [1]] (by decide)
    (by decide) (by decide)

/-- C10: a future in the `Error` state returns the stored error at the
first poll, taking it out of the `Option` and leaving `Error(None)`
behind; polling the same future again after it returned ready panics on
unwrapping the emptied `Option`, and no pull ever happens. -/
theorem c10_error_state_double_poll_panics (e : JsonPayloadError) :
    pollBytesStep (.error (some e)) = (.ready (.error e), .error none, 0) ∧
    pollBytesStep (.error none) = (.panic, .error none, 0) ∧
    (pollBytesStep (pollBytesStep (.error (some e))).2.1).1 = .panic :=
  ⟨rfl, rfl, rfl⟩
